import Mathlib

/-!
Shallow embedding of the Monkey interpreter (EarthlyZ9/monkey-interpreter).

The repository is a chapter-by-chapter implementation:
  * `01/src/monkey/lexer/lexer.go`        — the lexer,
  * `02/src/monkey/parser/parser.go`      — the Pratt parser,
  * `03/src/monkey/evaluator/evaluator.go`— the tree-walking evaluator,
  * `03/…/object/object.go`, `03/…/object/environment.go`,
    `04/…/object/object.go`              — the runtime value model,
  * the built-ins table (`builtins` map, in the evaluator package).

Machine integers (Go `int64`) are modelled as `Int` with explicit wrapping
modulo `2^64`; Go `nil` results are modelled as `Option`; Go run-time panics
(nil dereference, index out of range, division by zero) are modelled as the
outer `none` of the result type.
-/

namespace Monkey

/-- Wrap an unbounded integer to Go `int64` two's-complement semantics. -/
def wrap64 (x : Int) : Int := (x + 2 ^ 63) % 2 ^ 64 - 2 ^ 63

/-! ## Token model (`token` package)

Go represents `token.TokenType` as a string constant; the enumeration below
carries the same tags, with the Go spelling recoverable via
`TokenType.goString`. -/

inductive TokenType where
  | illegal | eof
  | ident | int | strTok
  | assign | plus | minus | bang | asterisk | slash
  | lt | gt | eq | notEq
  | comma | semicolon | colon
  | lparen | rparen | lbrace | rbrace | lbracket | rbracket
  | kwFunction | kwLet | kwTrue | kwFalse | kwIf | kwElse | kwReturn
  deriving DecidableEq, Repr

/-- The Go string constant behind each token type (used in parser messages). -/
def TokenType.goString : TokenType → String
  | .illegal => "ILLEGAL" | .eof => "EOF"
  | .ident => "IDENT" | .int => "INT" | .strTok => "STRING"
  | .assign => "=" | .plus => "+" | .minus => "-" | .bang => "!"
  | .asterisk => "*" | .slash => "/"
  | .lt => "<" | .gt => ">" | .eq => "==" | .notEq => "!="
  | .comma => "," | .semicolon => ";" | .colon => ":"
  | .lparen => "(" | .rparen => ")" | .lbrace => "\x7b" | .rbrace => "\x7d"
  | .lbracket => "[" | .rbracket => "]"
  | .kwFunction => "FUNCTION" | .kwLet => "LET" | .kwTrue => "TRUE"
  | .kwFalse => "FALSE" | .kwIf => "IF" | .kwElse => "ELSE"
  | .kwReturn => "RETURN"

structure Token where
  type : TokenType
  literal : String
  deriving DecidableEq, Repr

/-- The keyword table of the `token` package: identifiers matching a keyword
are emitted with the keyword kind (`token.LookupIdent`). -/
def lookupIdent (ident : String) : TokenType :=
  match ident with
  | "fn" => .kwFunction
  | "let" => .kwLet
  | "true" => .kwTrue
  | "false" => .kwFalse
  | "if" => .kwIf
  | "else" => .kwElse
  | "return" => .kwReturn
  | _ => .ident

/-! ## Lexer (`01/src/monkey/lexer/lexer.go`, extended per the spec)

The source lexer under `src/01` handles the operators, delimiters,
identifiers, integers, `EOF` and `ILLEGAL`.  The chapter-04 lexer of this
repository (which additionally scans string literals and the `[` `]` `:`
delimiters, as the spec requires) is not under `src/`; those three arms are
modelled from the spec below and marked as such.

The Go input is a byte string; it is modelled as `List Char` restricted to
ASCII, and the Go sentinel byte `0` as `Char.ofNat 0`. -/

structure Lexer where
  input : List Char
  position : Nat
  readPosition : Nat
  ch : Char
  deriving Repr

/-- Byte at index `i`, or the sentinel 0 when out of range (`l.input[i]` is
only read by the source at indices `< len`). -/
def charAt (s : List Char) (i : Nat) : Char := s.getD i (Char.ofNat 0)

/-- `readChar`: load the byte at `readPosition` (0 at end of input) and
advance both cursors. -/
def Lexer.readChar (l : Lexer) : Lexer :=
  { input := l.input
    ch := if l.readPosition ≥ l.input.length then Char.ofNat 0
          else charAt l.input l.readPosition
    position := l.readPosition
    readPosition := l.readPosition + 1 }

/-- `New`: position the lexer on the first byte. -/
def Lexer.new (input : List Char) : Lexer :=
  Lexer.readChar { input := input, position := 0, readPosition := 0, ch := Char.ofNat 0 }

/-- `peekChar`: look at the next byte without advancing. -/
def Lexer.peekChar (l : Lexer) : Char :=
  if l.readPosition ≥ l.input.length then Char.ofNat 0
  else charAt l.input l.readPosition

def isWhitespaceCh (c : Char) : Bool :=
  c == ' ' || c == '\t' || c == '\n' || c == '\r'

/-- `isLetter`: letters and `_` (no digits in identifiers in this dialect). -/
def isLetter (c : Char) : Bool :=
  ('a' ≤ c && c ≤ 'z') || ('A' ≤ c && c ≤ 'Z') || c == '_'

/-- `isDigit`. -/
def isDigit (c : Char) : Bool := '0' ≤ c && c ≤ '9'

/-- Fuel-indexed loop of `skipWhitespace`; in any state reachable from
`Lexer.new` the fuel `l.input.length + 1` is enough, since `readChar`
advances `readPosition` and yields the sentinel at end of input. -/
def skipWSGo : Nat → Lexer → Lexer
  | 0, l => l
  | fuel + 1, l => if isWhitespaceCh l.ch then skipWSGo fuel l.readChar else l

def Lexer.skipWhitespace (l : Lexer) : Lexer := skipWSGo (l.input.length + 1) l

/-- Loop of `readIdentifier`/`readNumber`: advance while the predicate holds. -/
def scanWhileGo (p : Char → Bool) : Nat → Lexer → Lexer
  | 0, l => l
  | fuel + 1, l => if p l.ch then scanWhileGo p fuel l.readChar else l

/-- `readIdentifier`: consume letters starting at `position`, return the
consumed slice together with the advanced lexer. -/
def Lexer.readIdentifier (l : Lexer) : String × Lexer :=
  let l' := scanWhileGo isLetter (l.input.length + 1) l
  (String.mk ((l.input.drop l.position).take (l'.position - l.position)), l')

/-- `readNumber`: consume digits starting at `position`. -/
def Lexer.readNumber (l : Lexer) : String × Lexer :=
  let l' := scanWhileGo isDigit (l.input.length + 1) l
  (String.mk ((l.input.drop l.position).take (l'.position - l.position)), l')

/-- Loop of `readString`: `readChar`, then stop on `"` or the end-of-input
sentinel.  Modelled from the spec: `"` begins a string literal; consume bytes
until the next `"` or end-of-input (the chapter-04 lexer is not under
`src/`). -/
def scanStringGo : Nat → Lexer → Lexer
  | 0, l => l
  | fuel + 1, l =>
      let l' := l.readChar
      if l'.ch == '"' || l'.ch == Char.ofNat 0 then l' else scanStringGo fuel l'

/-- Modelled from the spec: `readString` of the chapter-04 lexer.  The token
literal is `input[position+1 : stop]`, excluding the quotes, with no escape
processing. -/
def Lexer.readString (l : Lexer) : String × Lexer :=
  let start := l.position + 1
  let l' := scanStringGo (l.input.length + 1) l
  (String.mk ((l.input.drop start).take (l'.position - start)), l')

/-- `newToken`: a single-byte token. -/
def newToken (t : TokenType) (c : Char) : Token :=
  { type := t, literal := String.mk [c] }

/-- `NextToken`.  The `"`, `[`, `]`, `:` arms are modelled from the spec
(chapter-04 lexer, not under `src/`); every other arm is translated from
`01/src/monkey/lexer/lexer.go`. -/
def Lexer.nextToken (l0 : Lexer) : Token × Lexer :=
  let l := l0.skipWhitespace
  if l.ch == '=' then
    if l.peekChar == '=' then
      let l' := l.readChar
      ({ type := .eq, literal := "==" }, l'.readChar)
    else (newToken .assign l.ch, l.readChar)
  else if l.ch == '+' then (newToken .plus l.ch, l.readChar)
  else if l.ch == '-' then (newToken .minus l.ch, l.readChar)
  else if l.ch == '!' then
    if l.peekChar == '=' then
      let l' := l.readChar
      ({ type := .notEq, literal := "!=" }, l'.readChar)
    else (newToken .bang l.ch, l.readChar)
  else if l.ch == '/' then (newToken .slash l.ch, l.readChar)
  else if l.ch == '*' then (newToken .asterisk l.ch, l.readChar)
  else if l.ch == '<' then (newToken .lt l.ch, l.readChar)
  else if l.ch == '>' then (newToken .gt l.ch, l.readChar)
  else if l.ch == ';' then (newToken .semicolon l.ch, l.readChar)
  else if l.ch == ',' then (newToken .comma l.ch, l.readChar)
  else if l.ch == '\x7b' then (newToken .lbrace l.ch, l.readChar)
  else if l.ch == '\x7d' then (newToken .rbrace l.ch, l.readChar)
  else if l.ch == '(' then (newToken .lparen l.ch, l.readChar)
  else if l.ch == ')' then (newToken .rparen l.ch, l.readChar)
  else if l.ch == '"' then
    let (lit, l') := l.readString
    ({ type := .strTok, literal := lit }, l'.readChar)
  else if l.ch == '[' then (newToken .lbracket l.ch, l.readChar)
  else if l.ch == ']' then (newToken .rbracket l.ch, l.readChar)
  else if l.ch == ':' then (newToken .colon l.ch, l.readChar)
  else if l.ch == Char.ofNat 0 then ({ type := .eof, literal := "" }, l.readChar)
  else if isLetter l.ch then
    let (lit, l') := l.readIdentifier
    ({ type := lookupIdent lit, literal := lit }, l')
  else if isDigit l.ch then
    let (lit, l') := l.readNumber
    ({ type := .int, literal := lit }, l')
  else (newToken .illegal l.ch, l.readChar)

/-! ## AST (`ast` package)

The `ast.go` files are not under `src/`; the node shapes are modelled from
the spec's data model (section 3) and the parser's uses of them.  Each node's
originating token is dropped except where the parser reads it back (operator
literals, identifier names, literal values).  Hash literals are outside the
modelled fragment (no claim mentions them). -/

mutual
inductive Expr where
  | identifier (value : String)
  | integerLiteral (value : Int)
  | booleanLiteral (value : Bool)
  | stringLiteral (value : String)
  | prefixExpr (op : String) (right : Expr)
  | infixExpr (op : String) (left : Expr) (right : Expr)
  | ifExpr (condition : Expr) (consequence : Block) (alternative : Option Block)
  | functionLiteral (parameters : List String) (body : Block)
  | callExpr (function : Expr) (arguments : List Expr)
  | arrayLiteral (elements : List Expr)
  | indexExpr (left : Expr) (index : Expr)

inductive Stmt where
  | letStmt (name : String) (value : Expr)
  | returnStmt (value : Expr)
  | exprStmt (e : Expr)

inductive Block where
  | mk (statements : List Stmt)
end

def Block.statements : Block → List Stmt
  | .mk s => s

def joinComma (xs : List String) : String := String.intercalate ", " xs

mutual

/-- Modelled from the spec: the `String()` rendering of AST nodes
(`ast.go` is not under `src/`); parenthesisation follows the spec's
precedence round-trip table.  `fuel` only bounds the recursion depth. -/
def renderExpr : Nat → Expr → String
  | 0, _ => ""
  | fuel + 1, e =>
    match e with
    | .identifier v => v
    | .integerLiteral n => toString n
    | .booleanLiteral b => if b then "true" else "false"
    | .stringLiteral s => s
    | .prefixExpr op r => "(" ++ op ++ renderExpr fuel r ++ ")"
    | .infixExpr op l r =>
        "(" ++ renderExpr fuel l ++ " " ++ op ++ " " ++ renderExpr fuel r ++ ")"
    | .ifExpr c cons alt =>
        "if" ++ renderExpr fuel c ++ " " ++ renderBlock fuel cons ++
          (match alt with
           | some a => "else " ++ renderBlock fuel a
           | none => "")
    | .functionLiteral ps b => "fn(" ++ joinComma ps ++ ") " ++ renderBlock fuel b
    | .callExpr fn args =>
        renderExpr fuel fn ++ "(" ++ joinComma (args.map (renderExpr fuel)) ++ ")"
    | .arrayLiteral es => "[" ++ joinComma (es.map (renderExpr fuel)) ++ "]"
    | .indexExpr l i =>
        "(" ++ renderExpr fuel l ++ "[" ++ renderExpr fuel i ++ "])"
  termination_by structural fuel _ => fuel

/-- Rendering of a block: concatenation of its statements. -/
def renderBlock : Nat → Block → String
  | 0, _ => ""
  | fuel + 1, .mk stmts => String.join (stmts.map (renderStmt fuel))
  termination_by structural fuel _ => fuel

/-- Rendering of a statement. -/
def renderStmt : Nat → Stmt → String
  | 0, _ => ""
  | fuel + 1, s =>
    match s with
    | .letStmt name v => "let " ++ name ++ " = " ++ renderExpr fuel v ++ ";"
    | .returnStmt v => "return " ++ renderExpr fuel v ++ ";"
    | .exprStmt e => renderExpr fuel e
  termination_by structural fuel _ => fuel

end

/-- Rendering of a program: concatenation of its statements. -/
def renderProgram (fuel : Nat) (stmts : List Stmt) : String :=
  String.join (stmts.map (renderStmt fuel))

/-! ## Parser (`02/src/monkey/parser/parser.go`, extended per the spec)

The source parser under `src/02` implements the precedence ladder up to
`CALL` and the prefix/infix registrations for identifiers, integers,
booleans, `!`/`-`, grouping, `if`, function literals, the eight binary
operators and call expressions.  The chapter-04 parser of this repository
additionally registers string literals, array literals and the `[` infix at
a new top precedence level `INDEX`; that parser is not under `src/`, so those
arms are modelled from the spec and marked as such.  The Go dispatch tables
(`prefixParseFns` / `infixParseFns`) are realised as the match arms of
`parseExpression` and `parseInfixLoop`, with exactly the registered token
kinds appearing as cases. -/

def lowestPrec : Nat := 1
def equalsPrec : Nat := 2
def lessgreaterPrec : Nat := 3
def sumPrec : Nat := 4
def productPrec : Nat := 5
def prefixPrec : Nat := 6
def callPrec : Nat := 7
/-- Modelled from the spec: the `INDEX` level sits above `CALL` in the
chapter-04 precedence ladder. -/
def indexPrec : Nat := 8

/-- The `precedences` table; the `token.LBRACKET ↦ INDEX` entry is modelled
from the spec (chapter-04 parser). -/
def precedences (t : TokenType) : Option Nat :=
  match t with
  | .eq => some equalsPrec
  | .notEq => some equalsPrec
  | .lt => some lessgreaterPrec
  | .gt => some lessgreaterPrec
  | .plus => some sumPrec
  | .minus => some sumPrec
  | .slash => some productPrec
  | .asterisk => some productPrec
  | .lparen => some callPrec
  | .lbracket => some indexPrec
  | _ => none

structure Parser where
  l : Lexer
  errors : List String
  curToken : Token
  peekToken : Token
  deriving Repr

/-- `nextToken` of the parser: shift the look-ahead window. -/
def Parser.advance (p : Parser) : Parser :=
  let (tok, l') := p.l.nextToken
  { p with l := l', curToken := p.peekToken, peekToken := tok }

/-- `New`: read two tokens so `curToken` and `peekToken` are both set. -/
def Parser.new (l : Lexer) : Parser :=
  let (t1, l1) := l.nextToken
  let (t2, l2) := l1.nextToken
  { l := l2, errors := [], curToken := t1, peekToken := t2 }

def Parser.curTokenIs (p : Parser) (t : TokenType) : Bool := p.curToken.type = t

def Parser.peekTokenIs (p : Parser) (t : TokenType) : Bool := p.peekToken.type = t

def Parser.peekError (p : Parser) (t : TokenType) : Parser :=
  { p with errors := p.errors ++
      ["expected next token to be " ++ t.goString ++ ", got " ++
        p.peekToken.type.goString ++ " instead"] }

/-- `expectPeek`: advance on match, otherwise record an error. -/
def Parser.expectPeek (p : Parser) (t : TokenType) : Bool × Parser :=
  if p.peekTokenIs t then (true, p.advance) else (false, p.peekError t)

def Parser.noPrefixParseFnError (p : Parser) (t : TokenType) : Parser :=
  { p with errors := p.errors ++
      ["no prefix parse function for " ++ t.goString ++ " found"] }

def Parser.peekPrecedence (p : Parser) : Nat :=
  (precedences p.peekToken.type).getD lowestPrec

def Parser.curPrecedence (p : Parser) : Nat :=
  (precedences p.curToken.type).getD lowestPrec

/-- Largest `int64` value, the bound `strconv.ParseInt(…, 0, 64)` enforces. -/
def maxInt64 : Nat := 2 ^ 63 - 1

/-- Decimal value of a digit run. -/
def decValue (cs : List Char) : Nat :=
  cs.foldl (fun n c => n * 10 + (c.toNat - '0'.toNat)) 0

/-- Whether a character run is a non-empty decimal digit run. -/
def isDigitRun (cs : List Char) : Bool := ¬ cs.isEmpty && cs.all isDigit

/-- `parseIntegerLiteral`: the lexer only feeds digit runs here, so
`strconv.ParseInt(lit, 0, 64)` reduces to decimal conversion plus the
64-bit range check (the base-0 octal reading of leading-zero lexemes is not
modelled; no claim depends on it). -/
def parseIntegerLiteral (p : Parser) : Option Expr × Parser :=
  if isDigitRun p.curToken.literal.data ∧ decValue p.curToken.literal.data ≤ maxInt64 then
    (some (.integerLiteral (Int.ofNat (decValue p.curToken.literal.data))), p)
  else
    (none, { p with errors := p.errors ++
      ["could not parse \"" ++ p.curToken.literal ++ "\" as integer"] })

/-- Loop body of `parseFunctionParameters`. -/
def paramsGo : Nat → List String → Parser → List String × Parser
  | 0, acc, p => (acc.reverse, p)
  | fuel + 1, acc, p =>
      if p.peekTokenIs .comma then
        let p1 := p.advance.advance
        paramsGo fuel (p1.curToken.literal :: acc) p1
      else (acc.reverse, p)

/-- `parseFunctionParameters`: a possibly empty comma-separated identifier
list terminated by `)`. -/
def parseFunctionParameters (p : Parser) : Option (List String) × Parser :=
  if p.peekTokenIs .rparen then (some [], p.advance)
  else
    let p1 := p.advance
    let (idents, p2) := paramsGo (p1.l.input.length + 1) [p1.curToken.literal] p1
    let (ok, p3) := p2.expectPeek .rparen
    if ok then (some idents, p3) else (none, p3)

mutual

/-- `parseExpression`: prefix dispatch followed by the precedence-climbing
loop.  The `STRING` and `LBRACKET` prefix arms are modelled from the spec
(chapter-04 parser); all other arms mirror the registrations in
`02/src/monkey/parser/parser.go`. -/
def parseExpression : Nat → Nat → Parser → Option Expr × Parser
  | 0, _, p => (none, p)
  | fuel + 1, prec, p =>
      let (left, p1) :=
        match p.curToken.type with
        | .ident => (some (.identifier p.curToken.literal), p)
        | .int => parseIntegerLiteral p
        | .bang => parsePrefixExpression fuel p
        | .minus => parsePrefixExpression fuel p
        | .kwTrue => (some (.booleanLiteral true), p)
        | .kwFalse => (some (.booleanLiteral false), p)
        | .lparen => parseGroupedExpression fuel p
        | .kwIf => parseIfExpression fuel p
        | .kwFunction => parseFunctionLiteral fuel p
        | .strTok => (some (.stringLiteral p.curToken.literal), p)
        | .lbracket => parseArrayLiteral fuel p
        | t => (none, p.noPrefixParseFnError t)
      match left with
      | none => (none, p1)
      | some l => parseInfixLoop fuel prec l p1
  termination_by structural fuel _ _ => fuel

/-- The `for` loop of `parseExpression`: while the peek token is not `;` and
binds tighter than `prec`, fold `left` into the infix construct.  The
`LBRACKET` arm is modelled from the spec (chapter-04 `parseIndexExpression`
registration). -/
def parseInfixLoop : Nat → Nat → Expr → Parser → Option Expr × Parser
  | 0, _, left, p => (some left, p)
  | fuel + 1, prec, left, p =>
      if ¬ p.peekTokenIs .semicolon ∧ prec < p.peekPrecedence then
        match p.peekToken.type with
        | .plus | .minus | .slash | .asterisk | .eq | .notEq | .lt | .gt =>
            let p1 := p.advance
            let (res, p2) := parseInfixExpression fuel left p1
            match res with
            | some l' => parseInfixLoop fuel prec l' p2
            | none => (none, p2)
        | .lparen =>
            let p1 := p.advance
            let (res, p2) := parseCallExpression fuel left p1
            match res with
            | some l' => parseInfixLoop fuel prec l' p2
            | none => (none, p2)
        | .lbracket =>
            let p1 := p.advance
            let (res, p2) := parseIndexExpression fuel left p1
            match res with
            | some l' => parseInfixLoop fuel prec l' p2
            | none => (none, p2)
        | _ => (some left, p)
      else (some left, p)
  termination_by structural fuel _ _ _ => fuel

/-- `parseInfixExpression`: capture the operator and its precedence, advance,
parse the right operand at that precedence. -/
def parseInfixExpression : Nat → Expr → Parser → Option Expr × Parser
  | 0, _, p => (none, p)
  | fuel + 1, left, p =>
      let op := p.curToken.literal
      let prec := p.curPrecedence
      let p1 := p.advance
      let (right, p2) := parseExpression fuel prec p1
      match right with
      | some r => (some (.infixExpr op left r), p2)
      | none => (none, p2)
  termination_by structural fuel _ _ => fuel

/-- `parsePrefixExpression`: parse the operand at `PREFIX` precedence. -/
def parsePrefixExpression : Nat → Parser → Option Expr × Parser
  | 0, p => (none, p)
  | fuel + 1, p =>
      let op := p.curToken.literal
      let p1 := p.advance
      let (right, p2) := parseExpression fuel prefixPrec p1
      match right with
      | some r => (some (.prefixExpr op r), p2)
      | none => (none, p2)
  termination_by structural fuel _ => fuel

/-- `parseGroupedExpression`. -/
def parseGroupedExpression : Nat → Parser → Option Expr × Parser
  | 0, p => (none, p)
  | fuel + 1, p =>
      let p1 := p.advance
      let (e, p2) := parseExpression fuel lowestPrec p1
      let (ok, p3) := p2.expectPeek .rparen
      if ok then (e, p3) else (none, p3)
  termination_by structural fuel _ => fuel

/-- `parseIfExpression`. -/
def parseIfExpression : Nat → Parser → Option Expr × Parser
  | 0, p => (none, p)
  | fuel + 1, p =>
      let (ok1, p1) := p.expectPeek .lparen
      if ¬ ok1 then (none, p1) else
      let p2 := p1.advance
      let (cond, p3) := parseExpression fuel lowestPrec p2
      let (ok2, p4) := p3.expectPeek .rparen
      if ¬ ok2 then (none, p4) else
      let (ok3, p5) := p4.expectPeek .lbrace
      if ¬ ok3 then (none, p5) else
      let (cons, p6) := parseBlockStatement fuel p5
      match cond with
      | none => (none, p6)
      | some c =>
        if p6.peekTokenIs .kwElse then
          let p7 := p6.advance
          let (ok4, p8) := p7.expectPeek .lbrace
          if ¬ ok4 then (none, p8) else
          let (alt, p9) := parseBlockStatement fuel p8
          (some (.ifExpr c cons (some alt)), p9)
        else (some (.ifExpr c cons none), p6)
  termination_by structural fuel _ => fuel

/-- `parseBlockStatement`: consume `{`, then statements until `}` or EOF. -/
def parseBlockStatement : Nat → Parser → Block × Parser
  | 0, p => (.mk [], p)
  | fuel + 1, p => parseBlockGo fuel [] p.advance
  termination_by structural fuel _ => fuel

/-- Loop of `parseBlockStatement`. -/
def parseBlockGo : Nat → List Stmt → Parser → Block × Parser
  | 0, acc, p => (.mk acc.reverse, p)
  | fuel + 1, acc, p =>
      if ¬ p.curTokenIs .rbrace ∧ ¬ p.curTokenIs .eof then
        let (stmt, p1) := parseStatement fuel p
        let acc' := match stmt with
          | some s => s :: acc
          | none => acc
        parseBlockGo fuel acc' p1.advance
      else (.mk acc.reverse, p)
  termination_by structural fuel _ _ => fuel

/-- `parseFunctionLiteral`. -/
def parseFunctionLiteral : Nat → Parser → Option Expr × Parser
  | 0, p => (none, p)
  | fuel + 1, p =>
      let (ok1, p1) := p.expectPeek .lparen
      if ¬ ok1 then (none, p1) else
      let (params, p2) := parseFunctionParameters p1
      let (ok2, p3) := p2.expectPeek .lbrace
      if ¬ ok2 then (none, p3) else
      let (body, p4) := parseBlockStatement fuel p3
      match params with
      | some ps => (some (.functionLiteral ps body), p4)
      | none => (none, p4)
  termination_by structural fuel _ => fuel

/-- `parseCallExpression`: the `(` infix; arguments up to `)`. -/
def parseCallExpression : Nat → Expr → Parser → Option Expr × Parser
  | 0, _, p => (none, p)
  | fuel + 1, left, p =>
      let (args, p1) := parseExpressionList fuel .rparen p
      match args with
      | some as0 => (some (.callExpr left as0), p1)
      | none => (none, p1)
  termination_by structural fuel _ _ => fuel

/-- Modelled from the spec: chapter-04 `parseIndexExpression` — the `[`
infix; parse the index at `LOWEST` and require `]`. -/
def parseIndexExpression : Nat → Expr → Parser → Option Expr × Parser
  | 0, _, p => (none, p)
  | fuel + 1, left, p =>
      let p1 := p.advance
      let (idx, p2) := parseExpression fuel lowestPrec p1
      let (ok, p3) := p2.expectPeek .rbracket
      if ¬ ok then (none, p3) else
      match idx with
      | some i => (some (.indexExpr left i), p3)
      | none => (none, p3)
  termination_by structural fuel _ _ => fuel

/-- Modelled from the spec: chapter-04 `parseArrayLiteral` — a possibly
empty comma-separated expression list terminated by `]`. -/
def parseArrayLiteral : Nat → Parser → Option Expr × Parser
  | 0, p => (none, p)
  | fuel + 1, p =>
      let (es, p1) := parseExpressionList fuel .rbracket p
      match es with
      | some elems => (some (.arrayLiteral elems), p1)
      | none => (none, p1)
  termination_by structural fuel _ => fuel

/-- `parseExpressionList`: comma-separated expressions until `endT`
(chapter-04 generalisation of `parseCallArguments`). -/
def parseExpressionList : Nat → TokenType → Parser → Option (List Expr) × Parser
  | 0, _, p => (none, p)
  | fuel + 1, endT, p =>
      if p.peekTokenIs endT then (some [], p.advance)
      else
        let p1 := p.advance
        let (e, p2) := parseExpression fuel lowestPrec p1
        match e with
        | none => (none, p2)
        | some e0 =>
          let (rest, p3) := parseExprListGo fuel [e0] p2
          match rest with
          | none => (none, p3)
          | some es =>
            let (ok, p4) := p3.expectPeek endT
            if ok then (some es, p4) else (none, p4)
  termination_by structural fuel _ _ => fuel

/-- Loop of `parseExpressionList` over `, expr` continuations. -/
def parseExprListGo : Nat → List Expr → Parser → Option (List Expr) × Parser
  | 0, acc, p => (some acc.reverse, p)
  | fuel + 1, acc, p =>
      if p.peekTokenIs .comma then
        let p1 := p.advance.advance
        let (e, p2) := parseExpression fuel lowestPrec p1
        match e with
        | some e0 => parseExprListGo fuel (e0 :: acc) p2
        | none => (none, p2)
      else (some acc.reverse, p)
  termination_by structural fuel _ _ => fuel

/-- `parseStatement`: dispatch on the current token. -/
def parseStatement : Nat → Parser → Option Stmt × Parser
  | 0, p => (none, p)
  | fuel + 1, p =>
      match p.curToken.type with
      | .kwLet => parseLetStatement fuel p
      | .kwReturn => parseReturnStatement fuel p
      | _ => parseExpressionStatement fuel p
  termination_by structural fuel _ => fuel

/-- `parseLetStatement`. -/
def parseLetStatement : Nat → Parser → Option Stmt × Parser
  | 0, p => (none, p)
  | fuel + 1, p =>
      let (ok1, p1) := p.expectPeek .ident
      if ¬ ok1 then (none, p1) else
      let name := p1.curToken.literal
      let (ok2, p2) := p1.expectPeek .assign
      if ¬ ok2 then (none, p2) else
      let p3 := p2.advance
      let (v, p4) := parseExpression fuel lowestPrec p3
      let p5 := if p4.peekTokenIs .semicolon then p4.advance else p4
      match v with
      | some v0 => (some (.letStmt name v0), p5)
      | none => (none, p5)
  termination_by structural fuel _ => fuel

/-- `parseReturnStatement`. -/
def parseReturnStatement : Nat → Parser → Option Stmt × Parser
  | 0, p => (none, p)
  | fuel + 1, p =>
      let p1 := p.advance
      let (v, p2) := parseExpression fuel lowestPrec p1
      let p3 := if p2.peekTokenIs .semicolon then p2.advance else p2
      match v with
      | some v0 => (some (.returnStmt v0), p3)
      | none => (none, p3)
  termination_by structural fuel _ => fuel

/-- `parseExpressionStatement`. -/
def parseExpressionStatement : Nat → Parser → Option Stmt × Parser
  | 0, p => (none, p)
  | fuel + 1, p =>
      let (e, p1) := parseExpression fuel lowestPrec p
      let p2 := if p1.peekTokenIs .semicolon then p1.advance else p1
      match e with
      | some e0 => (some (.exprStmt e0), p2)
      | none => (none, p2)
  termination_by structural fuel _ => fuel

end

/-- Loop of `ParseProgram`: collect statements until `EOF`. -/
def parseProgramGo : Nat → List Stmt → Parser → List Stmt × Parser
  | 0, acc, p => (acc.reverse, p)
  | fuel + 1, acc, p =>
      if p.curTokenIs .eof then (acc.reverse, p)
      else
        let (stmt, p1) := parseStatement fuel p
        let acc' := match stmt with
          | some s => s :: acc
          | none => acc
        parseProgramGo fuel acc' p1.advance

/-- `ParseProgram` on a source string, with recursion fuel. -/
def parseInput (fuel : Nat) (src : String) : List Stmt × Parser :=
  parseProgramGo fuel [] (Parser.new (Lexer.new src.toList))

/-! ## Object model (`03/…/object/object.go` and `04/…/object/object.go`)

Objects live on the Go heap and are passed as interface pointers; the
embedding represents them by value.  A `Builtin`'s Go field `Fn` is a
function pointer into the `builtins` table; it is represented by the
table key (`BuiltinName`), with the pointed-to function given by
`builtinFn` below — the six builtins are the only `Builtin` values the
program ever constructs.  `Hash` objects are outside the modelled fragment
(no claim mentions them, and the `src/03` evaluator has no hash support). -/

inductive BuiltinName where
  | len | puts | first | last | rest | push
  deriving DecidableEq, Repr

/-- Environments are heap references; the embedding makes the heap explicit
as a `Store` of frames, and an environment is an index into it. -/
abbrev Env := Nat

inductive Object where
  | integer (value : Int)
  | boolean (value : Bool)
  | null
  /-- `ReturnValue.Value` is an interface field and may hold Go `nil`
  (hence `Option`). -/
  | returnValue (value : Option Object)
  | error (message : String)
  | function (parameters : List String) (body : Block) (env : Env)
  | string (value : String)
  | builtin (name : BuiltinName)
  /-- `Array.Elements` is a `[]Object` and may hold Go `nil` entries. -/
  | array (elements : List (Option Object))

/-- `Object.Type()`: the type tag, with the Go string constants. -/
def objectType : Object → String
  | .integer _ => "INTEGER"
  | .boolean _ => "BOOLEAN"
  | .null => "NULL"
  | .returnValue _ => "RETURN_VALUE"
  | .error _ => "ERROR"
  | .function _ _ _ => "FUNCTION"
  | .string _ => "STRING"
  | .builtin _ => "BUILTIN"
  | .array _ => "ARRAY"

/-- The singletons `NULL`, `TRUE`, `FALSE` of the evaluator package.  Go
pools them so that every `Boolean`/`Null` the evaluator produces is one of
these three allocations. -/
def TRUE : Object := .boolean true

def FALSE : Object := .boolean false

def NULL : Object := .null

/-- Go pointer identity (`left == right` on the `Object` interface),
restricted to the fragment where object values determine it: two `Boolean`
objects are the pooled singletons, so identity is value equality; `Null` is
a singleton; operands of different dynamic types are never identical.  For
two same-typed heap objects (functions, strings, arrays, …) identity
depends on the allocation, which the value representation does not carry;
`refEq` under-approximates it as `false` there, and no theorem below relies
on that case. -/
def refEq : Object → Object → Bool
  | .boolean a, .boolean b => a == b
  | .null, .null => true
  | _, _ => false

/-! ## Environments (`03/…/object/environment.go`)

`Environment.store` is a Go map from names to (possibly nil) Objects;
`outer` an optional enclosing environment.  `Set` writes the current frame;
`Get` walks the outer chain.  Frames are allocated at the end of the store,
so an `outer` reference always points to an earlier index and the chain
length is bounded by the store length. -/

structure Frame where
  store : List (String × Option Object)
  outer : Option Env

abbrev Store := List Frame

/-- Map lookup in one frame (`e.store[name]`); `Set` prepends, so the first
match is the most recent write, as for a Go map. -/
def frameGet (fr : Frame) (name : String) : Option (Option Object) :=
  match fr.store.find? (fun kv => kv.1 == name) with
  | some kv => some kv.2
  | none => none

/-- Fuel-indexed outer-chain walk of `Environment.Get`; the chain of any
store built by `newEnvironment`/`newEnclosedEnvironment` is acyclic and
shorter than the store, so `st.length + 1` fuel is exact. -/
def envGetGo : Nat → Store → Env → String → Option (Option Object)
  | 0, _, _, _ => none
  | fuel + 1, st, e, name =>
      match st.get? e with
      | none => none
      | some fr =>
          match frameGet fr name with
          | some v => some v
          | none =>
              match fr.outer with
              | some o => envGetGo fuel st o name
              | none => none

/-- `Environment.Get`: found flag outside, possibly-nil stored value inside. -/
def envGet (st : Store) (e : Env) (name : String) : Option (Option Object) :=
  envGetGo (st.length + 1) st e name

/-- `Environment.Set` on frame `e` (no-op on a dangling reference, which
never arises). -/
def envSet (st : Store) (e : Env) (name : String) (v : Option Object) : Store :=
  match st.get? e with
  | none => st
  | some fr => st.set e { fr with store := (name, v) :: fr.store }

/-- `NewEnvironment`: allocate a fresh frame with no outer reference. -/
def newEnvironment (st : Store) : Env × Store :=
  (st.length, st ++ [{ store := [], outer := none }])

/-- `NewEnclosedEnvironment`: allocate a fresh frame enclosed by `outer`. -/
def newEnclosedEnvironment (st : Store) (outer : Env) : Env × Store :=
  (st.length, st ++ [{ store := [], outer := some outer }])

/-! ## Built-ins (the `builtins` map of the evaluator package)

Translated from the second document of
`src/03/src/monkey/evaluator/evaluator.go` (the built-ins table).  A Go
builtin receives a `[]Object` that may contain nil interfaces; calling
`.Type()` on such an entry panics, which the embedding renders as `none`
(host fault).  `puts` prints via `Inspect` and returns `NULL`; the printing
side effect is outside the modelled fragment, but a nil argument would
still panic in `Inspect`, which is kept. -/

def newError (msg : String) : Object := .error msg

/-- `fmt.Sprintf("wrong number of arguments. got=%d, want=%d", …)`. -/
def wrongArgs (got : Nat) (want : Nat) : Object :=
  newError ("wrong number of arguments. got=" ++ toString got ++ ", want=" ++
    toString want)

/-- The `Fn` field of each builtin.  Result: outer `none` is a host panic;
otherwise the returned object (inner `none` never arises — every arm
returns a non-nil object). -/
def builtinFn : BuiltinName → List (Option Object) → Option (Option Object)
  | .len, args =>
      match args with
      | [some (.array elems)] => some (some (.integer (Int.ofNat elems.length)))
      | [some (.string s)] => some (some (.integer (Int.ofNat s.length)))
      | [some a] => some (some (newError ("argument to `len` not supported, got " ++
          objectType a)))
      | [none] => none
      | other => some (some (wrongArgs other.length 1))
  | .puts, args =>
      if args.all (fun a => a.isSome) then some (some NULL) else none
  | .first, args =>
      match args with
      | [some (.array elems)] =>
          match elems with
          | e :: _ => some e
          | [] => some (some NULL)
      | [some a] => some (some (newError ("argument to `first` must be ARRAY, got " ++
          objectType a)))
      | [none] => none
      | other => some (some (wrongArgs other.length 1))
  | .last, args =>
      match args with
      | [some (.array elems)] =>
          match elems.getLast? with
          | some e => some e
          | none => some (some NULL)
      | [some a] => some (some (newError ("argument to `last` must be ARRAY, got " ++
          objectType a)))
      | [none] => none
      | other => some (some (wrongArgs other.length 1))
  | .rest, args =>
      match args with
      | [some (.array elems)] =>
          match elems with
          | _ :: tl => some (some (.array tl))
          | [] => some (some NULL)
      | [some a] => some (some (newError ("argument to `rest` must be ARRAY, got " ++
          objectType a)))
      | [none] => none
      | other => some (some (wrongArgs other.length 1))
  | .push, args =>
      match args with
      | [some (.array elems), v] => some (some (.array (elems ++ [v])))
      | [some a, _] => some (some (newError ("argument to `push` must be ARRAY, got " ++
          objectType a)))
      | [none, _] => none
      | other => some (some (wrongArgs other.length 2))

/-- The `builtins` map: name to `Builtin` object. -/
def builtins (name : String) : Option Object :=
  match name with
  | "len" => some (.builtin .len)
  | "puts" => some (.builtin .puts)
  | "first" => some (.builtin .first)
  | "last" => some (.builtin .last)
  | "rest" => some (.builtin .rest)
  | "push" => some (.builtin .push)
  | _ => none

/-! ## Evaluator (`03/src/monkey/evaluator/evaluator.go`)

`Eval` returns an `object.Object` interface value that may be Go `nil`
(the unhandled-node fall-through and `let` statements).  The embedding's
result type is `Option (Option Object × Store)`:

  * outer `none` — a host-level fault: a Go run-time panic
    (nil-interface method call, index out of range, integer division by
    zero) or exhausted recursion fuel;
  * `some (none, st)` — `Eval` returned Go `nil`, heap now `st`;
  * `some (some o, st)` — `Eval` returned object `o`, heap now `st`.

`fuel` bounds the recursion depth and is threaded through every call;
no source behaviour depends on it. -/

abbrev Res := Option (Option Object × Store)

/-- `nativeBoolToBooleanObject`. -/
def nativeBoolToBooleanObject (input : Bool) : Object :=
  if input then TRUE else FALSE

/-- `isError`: `obj != nil && obj.Type() == ERROR_OBJ`. -/
def isError (obj : Option Object) : Bool :=
  match obj with
  | some o => objectType o == "ERROR"
  | none => false

/-- `isTruthy`: identity switch against the pooled singletons, `true` in
the default arm (which also catches a Go `nil` condition). -/
def isTruthy (obj : Option Object) : Bool :=
  match obj with
  | some .null => false
  | some (.boolean b) => b
  | _ => true

/-- `evalBangOperatorExpression`: identity switch against the singletons,
`FALSE` in the default arm (which also catches Go `nil`). -/
def evalBangOperatorExpression (right : Option Object) : Object :=
  match right with
  | some (.boolean true) => FALSE
  | some (.boolean false) => TRUE
  | some .null => TRUE
  | _ => FALSE

/-- `evalMinusPrefixOperatorExpression`; `right.Type()` on a nil interface
panics. -/
def evalMinusPrefixOperatorExpression (right : Option Object) : Option Object :=
  match right with
  | some (.integer v) => some (.integer (wrap64 (-v)))
  | some r => some (newError ("unknown operator: -" ++ objectType r))
  | none => none

/-- `evalPrefixExpression`. -/
def evalPrefixExpression (op : String) (right : Option Object) : Option Object :=
  if op == "!" then some (evalBangOperatorExpression right)
  else if op == "-" then evalMinusPrefixOperatorExpression right
  else
    match right with
    | some r => some (newError ("unknown operator: " ++ op ++ objectType r))
    | none => none

/-- `evalIntegerInfixExpression`.  Operands reach this function only when
both type tags are `INTEGER` (the failed type assertion otherwise would
panic, rendered `none`).  `+ - *` wrap per Go `int64`; `/` is Go truncated
division, and **division by zero panics in the host** — there is no zero
check in the source. -/
def evalIntegerInfixExpression (op : String) (left right : Object) : Option Object :=
  match left, right with
  | .integer a, .integer b =>
      if op == "+" then some (.integer (wrap64 (a + b)))
      else if op == "-" then some (.integer (wrap64 (a - b)))
      else if op == "*" then some (.integer (wrap64 (a * b)))
      else if op == "/" then
        if b = 0 then none else some (.integer (wrap64 (Int.tdiv a b)))
      else if op == "<" then some (nativeBoolToBooleanObject (decide (a < b)))
      else if op == ">" then some (nativeBoolToBooleanObject (decide (b < a)))
      else if op == "==" then some (nativeBoolToBooleanObject (decide (a = b)))
      else if op == "!=" then some (nativeBoolToBooleanObject (! decide (a = b)))
      else some (newError ("unknown operator: " ++ objectType left ++ " " ++ op ++
        " " ++ objectType right))
  | _, _ => none

/-- `evalInfixExpression`: the integer arm first, then the identity `==` and
`!=` arms, then the type-mismatch arm, then unknown-operator.  A nil
operand panics at the first `.Type()` call. -/
def evalInfixExpression (op : String) (left right : Option Object) : Option Object :=
  match left, right with
  | some l, some r =>
      if objectType l == "INTEGER" && objectType r == "INTEGER" then
        evalIntegerInfixExpression op l r
      else if op == "==" then some (nativeBoolToBooleanObject (refEq l r))
      else if op == "!=" then some (nativeBoolToBooleanObject (! refEq l r))
      else if objectType l != objectType r then
        some (newError ("type mismatch: " ++ objectType l ++ " " ++ op ++ " " ++
          objectType r))
      else
        some (newError ("unknown operator: " ++ objectType l ++ " " ++ op ++ " " ++
          objectType r))
  | _, _ => none

/-- `evalIdentifier` of `src/03`: the environment chain only — a miss is
immediately `identifier not found` (no built-ins consultation in this
version). -/
def evalIdentifier (st : Store) (env : Env) (name : String) : Option Object :=
  match envGet st env name with
  | some v => v
  | none => some (newError ("identifier not found: " ++ name))

/-- `unwrapReturnValue`. -/
def unwrapReturnValue (obj : Option Object) : Option Object :=
  match obj with
  | some (.returnValue v) => v
  | other => other

/-- Binding loop of `extendFunctionEnv`: `args[paramIdx]` for each parameter
in order; indexing past the end of `args` is a host panic (`none`). -/
def bindParams : List String → List (Option Object) → Env → Store → Option Store
  | [], _, _, st => some st
  | _ :: _, [], _, _ => none
  | p :: ps, a :: rest, e, st => bindParams ps rest e (envSet st e p a)

/-- `extendFunctionEnv`: a fresh frame enclosed by the **function's captured
environment** (the caller's environment is not even passed in), parameters
bound to arguments by position. -/
def extendFunctionEnv (params : List String) (fnEnv : Env)
    (args : List (Option Object)) (st : Store) : Option (Env × Store) :=
  let es := newEnclosedEnvironment st fnEnv
  match bindParams params args es.1 es.2 with
  | some st'' => some (es.1, st'')
  | none => none

mutual

/-- `Eval` on expression nodes.  String literals, array literals and index
expressions have no case in the `src/03` `Eval` switch and fall through to
`return nil`. -/
def evalExpr : Nat → Expr → Env → Store → Res
  | 0, _, _, _ => none
  | fuel + 1, e, env, st =>
      match e with
      | .integerLiteral v => some (some (.integer v), st)
      | .booleanLiteral b => some (some (nativeBoolToBooleanObject b), st)
      | .stringLiteral _ => some (none, st)
      | .arrayLiteral _ => some (none, st)
      | .indexExpr _ _ => some (none, st)
      | .prefixExpr op r =>
          match evalExpr fuel r env st with
          | none => none
          | some (right, st1) =>
              if isError right then some (right, st1)
              else
                match evalPrefixExpression op right with
                | some o => some (some o, st1)
                | none => none
      | .infixExpr op l r =>
          match evalExpr fuel l env st with
          | none => none
          | some (left, st1) =>
              if isError left then some (left, st1)
              else
                match evalExpr fuel r env st1 with
                | none => none
                | some (right, st2) =>
                    if isError right then some (right, st2)
                    else
                      match evalInfixExpression op left right with
                      | some o => some (some o, st2)
                      | none => none
      | .ifExpr c cons alt => evalIfExpression fuel c cons alt env st
      | .identifier name => some (evalIdentifier st env name, st)
      | .functionLiteral ps body => some (some (.function ps body env), st)
      | .callExpr fnE argsE =>
          match evalExpr fuel fnE env st with
          | none => none
          | some (function, st1) =>
              if isError function then some (function, st1)
              else
                match evalExprsGo fuel argsE [] env st1 with
                | none => none
                | some (args, st2) =>
                    if args.length == 1 && isError (args.getD 0 none) then
                      some (args.getD 0 none, st2)
                    else applyFunction fuel function args st2
  termination_by structural fuel _ _ _ => fuel

/-- `evalIfExpression`. -/
def evalIfExpression : Nat → Expr → Block → Option Block → Env → Store → Res
  | 0, _, _, _, _, _ => none
  | fuel + 1, c, cons, alt, env, st =>
      match evalExpr fuel c env st with
      | none => none
      | some (condition, st1) =>
          if isError condition then some (condition, st1)
          else if isTruthy condition then evalBlock fuel cons env st1
          else
            match alt with
            | some a => evalBlock fuel a env st1
            | none => some (some NULL, st1)
  termination_by structural fuel _ _ _ _ _ => fuel

/-- `evalExpressions`: left-to-right, stopping at the first error, which is
returned as the sole element. -/
def evalExprsGo : Nat → List Expr → List (Option Object) → Env → Store →
    Option (List (Option Object) × Store)
  | 0, _, _, _, _ => none
  | fuel + 1, es, acc, env, st =>
      match es with
      | [] => some (acc.reverse, st)
      | e :: rest =>
          match evalExpr fuel e env st with
          | none => none
          | some (evaluated, st1) =>
              if isError evaluated then some ([evaluated], st1)
              else evalExprsGo fuel rest (evaluated :: acc) env st1
  termination_by structural fuel _ _ _ _ => fuel

/-- `applyFunction` of `src/03`: only `*object.Function` is applicable —
any other non-nil callee (a `Builtin` included) is
`not a function: <TYPE>`; a nil callee panics at `fn.Type()`. -/
def applyFunction : Nat → Option Object → List (Option Object) → Store → Res
  | 0, _, _, _ => none
  | fuel + 1, fn, args, st =>
      match fn with
      | some (.function ps body fenv) =>
          match extendFunctionEnv ps fenv args st with
          | none => none
          | some (e', st1) =>
              match evalBlock fuel body e' st1 with
              | none => none
              | some (evaluated, st2) => some (unwrapReturnValue evaluated, st2)
      | some f => some (some (newError ("not a function: " ++ objectType f)), st)
      | none => none
  termination_by structural fuel _ _ _ => fuel

/-- `Eval` on statement nodes.  A `let` statement falls through the switch
after `env.Set`, so its result is Go `nil`. -/
def evalStmt : Nat → Stmt → Env → Store → Res
  | 0, _, _, _ => none
  | fuel + 1, s, env, st =>
      match s with
      | .letStmt name v =>
          match evalExpr fuel v env st with
          | none => none
          | some (val, st1) =>
              if isError val then some (val, st1)
              else some (none, envSet st1 env name val)
      | .returnStmt v =>
          match evalExpr fuel v env st with
          | none => none
          | some (val, st1) =>
              if isError val then some (val, st1)
              else some (some (.returnValue val), st1)
      | .exprStmt e => evalExpr fuel e env st
  termination_by structural fuel _ _ _ => fuel

/-- `evalBlockStatement`. -/
def evalBlock : Nat → Block → Env → Store → Res
  | 0, _, _, _ => none
  | fuel + 1, .mk stmts, env, st => evalBlockGo fuel stmts none env st
  termination_by structural fuel _ _ _ => fuel

/-- Fold of `evalBlockStatement`: a non-nil `RETURN_VALUE` or `ERROR`
result is returned **as-is, without unwrapping**. -/
def evalBlockGo : Nat → List Stmt → Option Object → Env → Store → Res
  | 0, _, _, _, _ => none
  | fuel + 1, stmts, result, env, st =>
      match stmts with
      | [] => some (result, st)
      | s :: rest =>
          match evalStmt fuel s env st with
          | none => none
          | some (result', st1) =>
              if (match result' with
                  | some r => objectType r == "RETURN_VALUE" || objectType r == "ERROR"
                  | none => false) then
                some (result', st1)
              else evalBlockGo fuel rest result' env st1
  termination_by structural fuel _ _ _ _ => fuel

end

/-- Fold of `evalProgram`: a `ReturnValue` is **unwrapped** to its inner
object; an `Error` is returned as-is. -/
def evalProgramGo : Nat → List Stmt → Option Object → Env → Store → Res
  | 0, _, _, _, _ => none
  | fuel + 1, stmts, result, env, st =>
      match stmts with
      | [] => some (result, st)
      | s :: rest =>
          match evalStmt fuel s env st with
          | none => none
          | some (result', st1) =>
              match result' with
              | some (.returnValue v) => some (v, st1)
              | some (.error m) => some (some (.error m), st1)
              | _ => evalProgramGo fuel rest result' env st1

/-- `evalProgram` on a whole program in a fresh global environment
(`object.NewEnvironment`). -/
def runProgram (fuel : Nat) (stmts : List Stmt) : Res :=
  let (e, st) := newEnvironment []
  evalProgramGo fuel stmts none e st

/-! ## Chapter-04 evaluator arms modelled from the spec

The chapter-04 evaluator of this repository consults the built-ins table on
an identifier miss and applies `Builtin` callees; that file is not under
`src/` — only the built-ins table itself (translated above) and the
chapter-03 versions of the two functions are.  The two definitions below
are modelled from the spec and settle the claims about the missing arms. -/

/-- Modelled from the spec: chapter-04 `evalIdentifier` — "`env.Get(name)`;
on miss, consult the built-ins table; if still absent,
`Error("identifier not found: <name>")`". -/
def evalIdentifierB (st : Store) (env : Env) (name : String) : Option Object :=
  match envGet st env name with
  | some v => v
  | none =>
      match builtins name with
      | some b => some b
      | none => some (newError ("identifier not found: " ++ name))

/-- Modelled from the spec: chapter-04 `applyFunction` — "If callee is
Function: … If callee is Builtin: invoke with the argument slice …
Otherwise: `Error("not a function: <type>")`".  The `Function` arm is the
`src/03` arm verbatim. -/
def applyFunctionB (fuel : Nat) (fn : Option Object) (args : List (Option Object))
    (st : Store) : Res :=
  match fn with
  | some (.function ps body fenv) =>
      match extendFunctionEnv ps fenv args st with
      | none => none
      | some (e', st1) =>
          match evalBlock fuel body e' st1 with
          | none => none
          | some (evaluated, st2) => some (unwrapReturnValue evaluated, st2)
  | some (.builtin bn) =>
      match builtinFn bn args with
      | some r => some (r, st)
      | none => none
  | some f => some (some (newError ("not a function: " ++ objectType f)), st)
  | none => none

/-! ## Helper lemmas -/

/-- `refEq` is `false` whenever the dynamic types differ (Go interface
equality across different dynamic types). -/
lemma refEq_eq_false_of_type_ne {l r : Object} (h : objectType l ≠ objectType r) :
    refEq l r = false := by
  cases l <;> cases r <;> first
    | rfl
    | (exact absurd rfl h)

/-- `envSet` never changes a frame's `outer` reference. -/
lemma outer_map_envSet (st : Store) (e : Env) (name : String) (v : Option Object)
    (i : Nat) :
    ((envSet st e name v).get? i).map Frame.outer = (st.get? i).map Frame.outer := by
  unfold envSet
  cases hfr : st.get? e with
  | none => rfl
  | some fr =>
      by_cases hei : e = i
      · subst hei
        rw [List.get?_set_eq, hfr]
        rfl
      · rw [List.get?_set_ne _ _ hei]

/-- The parameter-binding loop never changes a frame's `outer` reference. -/
lemma outer_map_bindParams :
    ∀ (ps : List String) (args : List (Option Object)) (e : Env) (st st' : Store),
      bindParams ps args e st = some st' →
      ∀ i, (st'.get? i).map Frame.outer = (st.get? i).map Frame.outer := by
  intro ps
  induction ps with
  | nil => intro args e st st' h i; cases h; rfl
  | cons p ps ih =>
      intro args e st st' h i
      cases args with
      | nil => cases h
      | cons a rest =>
          have := ih rest e (envSet st e p a) st' h i
          rw [this, outer_map_envSet]

/-- Binding fewer arguments than parameters faults (the `args[paramIdx]`
access is out of range). -/
lemma bindParams_eq_none_of_short :
    ∀ (ps : List String) (args : List (Option Object)) (e : Env) (st : Store),
      args.length < ps.length → bindParams ps args e st = none := by
  intro ps
  induction ps with
  | nil => intro args e st h; simp at h
  | cons p ps ih =>
      intro args e st h
      cases args with
      | nil => rfl
      | cons a rest =>
          simp only [List.length_cons, Nat.add_lt_add_iff_right] at h
          exact ih rest e (envSet st e p a) h

/-- Arguments beyond the parameter count never influence the binding loop. -/
lemma bindParams_append :
    ∀ (ps : List String) (args extra : List (Option Object)) (e : Env) (st : Store),
      ps.length = args.length →
      bindParams ps (args ++ extra) e st = bindParams ps args e st := by
  intro ps
  induction ps with
  | nil =>
      intro args extra e st h
      cases args with
      | nil => rfl
      | cons a rest => cases h
  | cons p ps ih =>
      intro args extra e st h
      cases args with
      | nil => cases h
      | cons a rest =>
          simp only [List.length_cons, Nat.add_right_cancel_iff] at h
          exact ih rest extra e (envSet st e p a) h

/-! ## Claims -/

/-- C4: the precedence table places an `INDEX` level for `[` above `CALL`,
and parsing `a * [1, 2, 3][b * c] * d` succeeds with an empty error list,
rendering as `((a * ([1, 2, 3][(b * c)])) * d)`. -/
theorem c4_index_precedence_parse :
    precedences .lbracket = some indexPrec ∧
    precedences .lparen = some callPrec ∧
    callPrec < indexPrec ∧
    (parseInput 100 "a * [1, 2, 3][b * c] * d").2.errors = [] ∧
    renderProgram 100 (parseInput 100 "a * [1, 2, 3][b * c] * d").1 =
      "((a * ([1, 2, 3][(b * c)])) * d)" :=
  ⟨rfl, rfl, by decide, by decide, by decide⟩

/-- C5 counterexample: evaluating the infix `/` on the Integer operands 5
and 0 does not produce an Integer object (or any object at all) — the
evaluation faults in the host (Go panics with a division by zero), so the
claim that every Integer `+ - * /` returns an Integer and that evaluation
never panics is false as stated. -/
theorem c5_div_zero_counterexample :
    evalIntegerInfixExpression "/" (.integer 5) (.integer 0) = none ∧
    evalExpr 10 (.infixExpr "/" (.integerLiteral 5) (.integerLiteral 0)) 0 [] =
      none :=
  ⟨rfl, rfl⟩

/-- C5 (amended): for Integer operands, `+`, `-` and `*` return an Integer
object wrapping per 64-bit signed two's-complement, and `/` does the same
with truncation toward zero **provided the right operand is non-zero**;
division by zero faults in the host instead of being delivered as an Error
object. -/
theorem c5_integer_arithmetic (a b : Int) :
    evalIntegerInfixExpression "+" (.integer a) (.integer b) =
      some (.integer (wrap64 (a + b))) ∧
    evalIntegerInfixExpression "-" (.integer a) (.integer b) =
      some (.integer (wrap64 (a - b))) ∧
    evalIntegerInfixExpression "*" (.integer a) (.integer b) =
      some (.integer (wrap64 (a * b))) ∧
    (b ≠ 0 → evalIntegerInfixExpression "/" (.integer a) (.integer b) =
      some (.integer (wrap64 (Int.tdiv a b)))) ∧
    (b = 0 → evalIntegerInfixExpression "/" (.integer a) (.integer b) = none) := by
  refine ⟨rfl, rfl, rfl, ?_, ?_⟩
  · intro h
    simp [evalIntegerInfixExpression, h]
  · intro h
    simp [evalIntegerInfixExpression, h]

/-- C5 witness: `6 / 2` evaluates to the Integer 3. -/
theorem c5_integer_arithmetic_witness :
    evalIntegerInfixExpression "/" (.integer 6) (.integer 2) =
      some (.integer 3) :=
  ((c5_integer_arithmetic 6 2).2.2.2.1 (by decide)).trans rfl

/-- C8: `==` and `!=` on operands drawn from the pooled `TRUE`/`FALSE`/
`NULL` singletons reduce to identity comparison (`refEq`), so Boolean
equality needs no dedicated arm: it coincides with value equality of the
pooled booleans, and `true == true` yields the `TRUE` singleton. -/
theorem c8_singleton_identity_equality :
    (∀ l r : Object,
      ¬ (objectType l = "INTEGER" ∧ objectType r = "INTEGER") →
      evalInfixExpression "==" (some l) (some r) =
        some (nativeBoolToBooleanObject (refEq l r)) ∧
      evalInfixExpression "!=" (some l) (some r) =
        some (nativeBoolToBooleanObject (! refEq l r))) ∧
    (∀ a b : Bool,
      evalInfixExpression "==" (some (.boolean a)) (some (.boolean b)) =
        some (nativeBoolToBooleanObject (refEq (.boolean a) (.boolean b))) ∧
      refEq (.boolean a) (.boolean b) = (a == b)) ∧
    (∀ l r : Object,
      (l = TRUE ∨ l = FALSE ∨ l = NULL) → (r = TRUE ∨ r = FALSE ∨ r = NULL) →
      evalInfixExpression "==" (some l) (some r) =
        some (nativeBoolToBooleanObject (refEq l r)) ∧
      evalInfixExpression "!=" (some l) (some r) =
        some (nativeBoolToBooleanObject (! refEq l r))) ∧
    evalInfixExpression "==" (some TRUE) (some TRUE) = some TRUE := by
  refine ⟨?_, ?_, ?_, rfl⟩
  · intro l r h
    have hnotint : (objectType l == "INTEGER" && objectType r == "INTEGER") = false := by
      cases hli : objectType l == "INTEGER" <;>
        cases hri : objectType r == "INTEGER" <;> simp_all
    constructor
    · simp only [evalInfixExpression, hnotint, Bool.false_eq_true, if_false]
      rfl
    · simp only [evalInfixExpression, hnotint, Bool.false_eq_true, if_false]
      rfl
  · intro a b
    cases a <;> cases b <;> exact ⟨rfl, rfl⟩
  · intro l r hl hr
    rcases hl with h | h | h <;> subst h <;>
      rcases hr with h | h | h <;> subst h <;> exact ⟨rfl, rfl⟩

/-- C8 witness: `TRUE != NULL` is identity-based and yields `TRUE`. -/
theorem c8_singleton_identity_equality_witness :
    evalInfixExpression "!=" (some TRUE) (some NULL) =
      some (nativeBoolToBooleanObject (! refEq TRUE NULL)) :=
  (c8_singleton_identity_equality.2.2.1 TRUE NULL (Or.inl rfl)
    (Or.inr (Or.inr rfl))).2

/-- C9: applying a user-defined Function performs no arity check — with
fewer arguments than parameters, `extendFunctionEnv` indexes the argument
slice out of range and the host faults instead of producing an Error
object, while arguments beyond the parameter count are ignored. -/
theorem c9_no_arity_check :
    (∀ (ps : List String) (fenv : Env) (args : List (Option Object)) (st : Store),
      args.length < ps.length → extendFunctionEnv ps fenv args st = none) ∧
    (∀ (fuel : Nat) (ps : List String) (body : Block) (fenv : Env)
        (args : List (Option Object)) (st : Store),
      args.length < ps.length →
      applyFunction (fuel + 1) (some (.function ps body fenv)) args st = none) ∧
    (∀ (ps : List String) (fenv : Env) (args extra : List (Option Object))
        (st : Store),
      ps.length = args.length →
      extendFunctionEnv ps fenv (args ++ extra) st =
        extendFunctionEnv ps fenv args st) := by
  have hext : ∀ (ps : List String) (fenv : Env) (args : List (Option Object))
      (st : Store), args.length < ps.length →
      extendFunctionEnv ps fenv args st = none := by
    intro ps fenv args st h
    unfold extendFunctionEnv
    dsimp only
    rw [bindParams_eq_none_of_short ps args _ _ h]
  refine ⟨hext, ?_, ?_⟩
  · intro fuel ps body fenv args st h
    simp only [applyFunction, hext ps fenv args st h]
  · intro ps fenv args extra st h
    unfold extendFunctionEnv
    dsimp only
    rw [bindParams_append ps args extra _ _ h]

/-- C9 witness: a two-parameter function applied to one argument faults. -/
theorem c9_no_arity_check_witness :
    extendFunctionEnv ["x", "y"] 0 [some (.integer 1)] [] = none ∧
    applyFunction 3 (some (.function ["x", "y"] (.mk []) 0))
      [some (.integer 1)] [] = none :=
  ⟨c9_no_arity_check.1 ["x", "y"] 0 [some (.integer 1)] [] (by decide),
   c9_no_arity_check.2.1 2 ["x", "y"] (.mk []) 0 [some (.integer 1)] [] (by decide)⟩

/-- C10: `==`/`!=` on operands with different type tags (hence at least one
non-Integer) yield the `FALSE`/`TRUE` singletons by identity comparison and
never the `type mismatch` Error, because the equality arms precede the
type-mismatch arm. -/
theorem c10_cross_type_equality (l r : Object)
    (hne : objectType l ≠ objectType r) :
    refEq l r = false ∧
    evalInfixExpression "==" (some l) (some r) = some FALSE ∧
    evalInfixExpression "!=" (some l) (some r) = some TRUE ∧
    (∀ msg : String,
      evalInfixExpression "==" (some l) (some r) ≠ some (newError msg) ∧
      evalInfixExpression "!=" (some l) (some r) ≠ some (newError msg)) := by
  have href := refEq_eq_false_of_type_ne hne
  have hnotint : (objectType l == "INTEGER" && objectType r == "INTEGER") = false := by
    cases hli : objectType l == "INTEGER" <;>
      cases hri : objectType r == "INTEGER" <;> simp_all
  have he : evalInfixExpression "==" (some l) (some r) = some FALSE := by
    simp only [evalInfixExpression, hnotint, Bool.false_eq_true, if_false, href]
    rfl
  have hn : evalInfixExpression "!=" (some l) (some r) = some TRUE := by
    simp only [evalInfixExpression, hnotint, Bool.false_eq_true, if_false, href]
    rfl
  refine ⟨href, he, hn, ?_⟩
  intro msg
  constructor
  · rw [he]; intro hcon; cases hcon
  · rw [hn]; intro hcon; cases hcon

/-- C10 witness: `5 == true` yields `FALSE`, not a type-mismatch Error. -/
theorem c10_cross_type_equality_witness :
    evalInfixExpression "==" (some (.integer 5)) (some (.boolean true)) =
      some FALSE :=
  (c10_cross_type_equality (.integer 5) (.boolean true) (by decide)).2.1

/-- C1: for a name bound nowhere in the environment chain, the
(spec-modelled) identifier evaluation consults the built-ins table: a
built-in name yields its Builtin object, a name absent from both yields the
`identifier not found` Error, and the table holds exactly
`len`, `first`, `last`, `rest`, `push`, `puts`. -/
theorem c1_identifier_builtin_lookup (st : Store) (env : Env) (name : String)
    (h : envGet st env name = none) :
    (∀ b, builtins name = some b →
      evalIdentifierB st env name = some b ∧ ∃ bn, b = Object.builtin bn) ∧
    (builtins name = none →
      evalIdentifierB st env name =
        some (newError ("identifier not found: " ++ name))) ∧
    (∀ m : String, (builtins m).isSome = true ↔
      m ∈ (["len", "first", "last", "rest", "push", "puts"] : List String)) := by
  refine ⟨?_, ?_, ?_⟩
  · intro b hb
    refine ⟨by simp [evalIdentifierB, h, hb], ?_⟩
    revert hb
    unfold builtins
    split <;> intro hb <;> first
      | exact ⟨_, (Option.some.inj hb).symm⟩
      | cases hb
  · intro hb
    simp [evalIdentifierB, h, hb]
  · intro m
    unfold builtins
    split <;> simp_all

/-- C1 witness: in a store with one empty global frame, `len` resolves to
its Builtin object and `foobar` to the `identifier not found` Error. -/
theorem c1_identifier_builtin_lookup_witness :
    evalIdentifierB [{ store := [], outer := none }] 0 "len" =
      some (Object.builtin .len) ∧
    evalIdentifierB [{ store := [], outer := none }] 0 "foobar" =
      some (newError "identifier not found: foobar") :=
  ⟨((c1_identifier_builtin_lookup [{ store := [], outer := none }] 0 "len"
      rfl).1 (Object.builtin .len) rfl).1,
   ((c1_identifier_builtin_lookup [{ store := [], outer := none }] 0 "foobar"
      rfl).2.1 rfl).trans rfl⟩

/-- C2: a Builtin callee is applied by invoking the built-in's function on
the evaluated argument slice (the spec-modelled chapter-04 `applyFunction`),
and the `not a function` Error arises only for a callee that is neither a
Function nor a Builtin. -/
theorem c2_apply_builtin (fuel : Nat) (args : List (Option Object)) (st : Store) :
    (∀ bn : BuiltinName,
      applyFunctionB fuel (some (.builtin bn)) args st =
        match builtinFn bn args with
        | some r => some (r, st)
        | none => none) ∧
    (∀ f : Object,
      (∀ ps body fenv, f ≠ Object.function ps body fenv) →
      (∀ bn, f ≠ Object.builtin bn) →
      applyFunctionB fuel (some f) args st =
        some (some (newError ("not a function: " ++ objectType f)), st)) := by
  refine ⟨fun bn => rfl, ?_⟩
  intro f hfn hbn
  cases f with
  | function ps body fenv => exact absurd rfl (hfn ps body fenv)
  | builtin bn => exact absurd rfl (hbn bn)
  | integer v => rfl
  | boolean v => rfl
  | null => rfl
  | returnValue v => rfl
  | error m => rfl
  | string v => rfl
  | array es => rfl

/-- C2 witness: the Builtin `len` applied to `["abc"]` returns the Integer
3, and an Integer callee is `not a function: INTEGER`. -/
theorem c2_apply_builtin_witness :
    applyFunctionB 1 (some (.builtin .len)) [some (.string "abc")] [] =
      some (some (.integer 3), []) ∧
    applyFunctionB 1 (some (.integer 7)) [] [] =
      some (some (newError "not a function: INTEGER"), []) :=
  ⟨((c2_apply_builtin 1 [some (.string "abc")] []).1 .len).trans rfl,
   ((c2_apply_builtin 1 [] []).2 (.integer 7)
      (fun _ _ _ hc => by cases hc) (fun _ hc => by cases hc)).trans rfl⟩

/-- The source text of the nested-return example. -/
def c6src : String :=
  "if (10 > 1) \x7b if (10 > 1) \x7b return 10; \x7d return 1; \x7d"

/-- The AST of `c6src`. -/
def c6prog : List Stmt :=
  [.exprStmt (.ifExpr (.infixExpr ">" (.integerLiteral 10) (.integerLiteral 1))
    (.mk [.exprStmt (.ifExpr (.infixExpr ">" (.integerLiteral 10) (.integerLiteral 1))
            (.mk [.returnStmt (.integerLiteral 10)]) none),
          .returnStmt (.integerLiteral 1)]) none)]

/-- C6: a block returns a `RETURN_VALUE` or `ERROR` result as-is, without
unwrapping, while the program fold unwraps a `ReturnValue` to its inner
object; consequently the nested-return program `c6src` evaluates as a block
to the wrapped `ReturnValue 10` and as a program to the Integer 10. -/
theorem c6_block_return_propagation :
    (∀ (fuel : Nat) (s : Stmt) (rest : List Stmt) (r : Object) (env : Env)
        (st st1 : Store),
      evalStmt fuel s env st = some (some r, st1) →
      objectType r = "RETURN_VALUE" ∨ objectType r = "ERROR" →
      evalBlockGo (fuel + 1) (s :: rest) none env st = some (some r, st1)) ∧
    (∀ (fuel : Nat) (s : Stmt) (rest : List Stmt) (v : Option Object)
        (env : Env) (st st1 : Store),
      evalStmt fuel s env st = some (some (.returnValue v), st1) →
      evalProgramGo (fuel + 1) (s :: rest) none env st = some (v, st1)) ∧
    (parseInput 100 c6src).1 = c6prog ∧
    (parseInput 100 c6src).2.errors = [] ∧
    evalBlockGo 100 c6prog none 0 [{ store := [], outer := none }] =
      some (some (.returnValue (some (.integer 10))),
        [{ store := [], outer := none }]) ∧
    runProgram 100 c6prog =
      some (some (.integer 10), [{ store := [], outer := none }]) := by
  refine ⟨?_, ?_, rfl, rfl, rfl, rfl⟩
  · intro fuel s rest r env st st1 h hro
    rcases hro with hr | hr <;> simp [evalBlockGo, h, hr]
  · intro fuel s rest v env st st1 h
    simp [evalProgramGo, h]

/-- C6 witness: a single `return 3;` statement is kept wrapped by the block
fold and unwrapped by the program fold. -/
theorem c6_block_return_propagation_witness :
    evalBlockGo 6 [.returnStmt (.integerLiteral 3)] none 0
      [{ store := [], outer := none }] =
      some (some (.returnValue (some (.integer 3))),
        [{ store := [], outer := none }]) ∧
    evalProgramGo 6 [.returnStmt (.integerLiteral 3)] none 0
      [{ store := [], outer := none }] =
      some (some (.integer 3), [{ store := [], outer := none }]) :=
  ⟨c6_block_return_propagation.1 5 (.returnStmt (.integerLiteral 3)) []
      (.returnValue (some (.integer 3))) 0 _ _ rfl (Or.inl rfl),
   c6_block_return_propagation.2.1 5 (.returnStmt (.integerLiteral 3)) []
      (some (.integer 3)) 0 _ _ rfl⟩

/-- The source text of the closure example. -/
def c7src : String :=
  "let newAdder = fn(x) \x7b fn(y) \x7b x + y \x7d \x7d; let addTwo = newAdder(2); addTwo(3)"

/-- The AST of `c7src`. -/
def c7prog : List Stmt :=
  [.letStmt "newAdder" (.functionLiteral ["x"]
      (.mk [.exprStmt (.functionLiteral ["y"]
        (.mk [.exprStmt (.infixExpr "+" (.identifier "x") (.identifier "y"))]))])),
   .letStmt "addTwo" (.callExpr (.identifier "newAdder") [.integerLiteral 2]),
   .exprStmt (.callExpr (.identifier "addTwo") [.integerLiteral 3])]

/-- C7: applying a Function extends an environment whose outer reference is
the Function's captured defining environment (the caller's environment is
not involved), parameters are bound positionally, an outer `ReturnValue` is
unwrapped, and the closure program `c7src` evaluates to the Integer 5. -/
theorem c7_closures :
    (∀ (ps : List String) (fenv : Env) (args : List (Option Object))
        (st : Store) (e' : Env) (st' : Store),
      extendFunctionEnv ps fenv args st = some (e', st') →
      e' = st.length ∧ (st'.get? e').map Frame.outer = some (some fenv)) ∧
    (∀ v : Option Object, unwrapReturnValue (some (.returnValue v)) = v) ∧
    (parseInput 100 c7src).1 = c7prog ∧
    (parseInput 100 c7src).2.errors = [] ∧
    (runProgram 100 c7prog).map Prod.fst = some (some (.integer 5)) := by
  refine ⟨?_, fun v => rfl, rfl, rfl, rfl⟩
  intro ps fenv args st e' st' h
  unfold extendFunctionEnv at h
  dsimp only at h
  cases hbp : bindParams ps args (newEnclosedEnvironment st fenv).1
      (newEnclosedEnvironment st fenv).2 with
  | none => rw [hbp] at h; cases h
  | some st'' =>
      rw [hbp] at h
      have he : e' = st.length := by
        have := (Option.some.inj h)
        exact (congrArg Prod.fst this).symm
      have hst : st' = st'' := by
        have := (Option.some.inj h)
        exact (congrArg Prod.snd this).symm
      subst he hst
      refine ⟨rfl, ?_⟩
      rw [outer_map_bindParams ps args _ _ _ hbp]
      show ((st ++ [({ store := [], outer := some fenv } : Frame)]).get?
        st.length).map Frame.outer = some (some fenv)
      rw [List.get?_concat_length]
      rfl

/-- C7 witness: extending the environment of a one-parameter function
captured in frame 0 allocates frame 1 with outer reference 0. -/
theorem c7_closures_witness :
    extendFunctionEnv ["x"] 0 [some (.integer 2)]
        [{ store := [], outer := none }] =
      some (1, [{ store := [], outer := none },
                { store := [("x", some (.integer 2))], outer := some 0 }]) ∧
    ((( [{ store := [], outer := none },
         { store := [("x", some (.integer 2))], outer := some 0 }] : Store).get?
          1).map Frame.outer = some (some 0)) :=
  ⟨rfl,
   (c7_closures.1 ["x"] 0 [some (.integer 2)] [{ store := [], outer := none }]
      1 _ rfl).2⟩

/-- One step of the `readString` scan loop. -/
lemma scanStringGo_succ (f : Nat) (l : Lexer) :
    scanStringGo (f + 1) l =
      if l.readChar.ch == '"' || l.readChar.ch == Char.ofNat 0
      then l.readChar else scanStringGo f l.readChar := rfl

/-- The `readString` scan loop stops exactly after the maximal run of
non-quote bytes following the opening quote: its final `position` is the
opening position plus one plus the length of that run, for NUL-free input
and sufficient fuel. -/
lemma scanStringGo_position :
    ∀ (fuel : Nat) (l : Lexer),
      l.readPosition = l.position + 1 →
      (Char.ofNat 0) ∉ l.input →
      l.input.length - l.position < fuel →
      (scanStringGo fuel l).position =
        l.position + 1 +
          ((l.input.drop (l.position + 1)).takeWhile (fun c => !(c == '"'))).length := by
  intro fuel
  induction fuel with
  | zero => intro l _ _ hf; exact absurd hf (Nat.not_lt_zero _)
  | succ f ih =>
      intro l hrp hnul hf
      rw [scanStringGo_succ]
      by_cases hlen : l.input.length ≤ l.position + 1
      · have hch : l.readChar.ch = Char.ofNat 0 := by
          unfold Lexer.readChar
          rw [hrp]
          simp [hlen]
        have hdrop : l.input.drop (l.position + 1) = [] :=
          List.drop_eq_nil_of_le hlen
        rw [hch, hdrop]
        have hcond : ((Char.ofNat 0 == '"') || (Char.ofNat 0 == Char.ofNat 0)) = true := by
          decide
        rw [hcond]
        simp [Lexer.readChar, hrp]
      · push_neg at hlen
        have hch : l.readChar.ch = charAt l.input (l.position + 1) := by
          unfold Lexer.readChar
          rw [hrp]
          simp [Nat.not_le.mpr hlen]
        have hcc : charAt l.input (l.position + 1) ∈ l.input := by
          unfold charAt
          rw [List.getD_eq_getElem l.input _ hlen]
          exact List.getElem_mem hlen
        have hcz : (charAt l.input (l.position + 1) == Char.ofNat 0) = false := by
          rw [beq_eq_false_iff_ne]
          intro hc
          exact hnul (hc ▸ hcc)
        have hdrop : l.input.drop (l.position + 1) =
            charAt l.input (l.position + 1) :: l.input.drop (l.position + 2) := by
          rw [List.drop_eq_getElem_cons hlen]
          unfold charAt
          rw [List.getD_eq_getElem l.input _ hlen]
        by_cases hq : charAt l.input (l.position + 1) = '"'
        · rw [hch, hq]
          have hcond : (('"' == '"') || ('"' == Char.ofNat 0)) = true := by decide
          rw [hcond]
          simp only [if_true]
          rw [hdrop, hq]
          simp [Lexer.readChar, hrp, List.takeWhile_cons]
        · have hqb : (charAt l.input (l.position + 1) == '"') = false := by
            rw [beq_eq_false_iff_ne]; exact hq
          rw [hch, hqb, hcz]
          simp only [Bool.or_self, Bool.false_eq_true, if_false]
          have hrp' : l.readChar.readPosition = l.readChar.position + 1 := by
            simp [Lexer.readChar]
          have hnul' : (Char.ofNat 0) ∉ l.readChar.input := by
            simpa [Lexer.readChar] using hnul
          have hf' : l.readChar.input.length - l.readChar.position < f := by
            simp only [Lexer.readChar, hrp]
            omega
          have hih := ih l.readChar hrp' hnul' hf'
          rw [hih]
          have hpos : l.readChar.position = l.position + 1 := by
            simp [Lexer.readChar, hrp]
          have hinp : l.readChar.input = l.input := rfl
          rw [hpos, hinp, hdrop]
          have h12 : l.position + 1 + 1 = l.position + 2 := by omega
          rw [h12]
          rw [List.takeWhile_cons]
          rw [hqb]
          simp only [Bool.not_false, if_true, List.length_cons]
          omega

/-- C3: at any reachable lexer state whose current byte is `"`,
`NextToken` (with the spec-modelled string arm) produces a `STRING` token
whose literal is exactly the run of bytes after the opening quote up to the
next quote or end-of-input, quotes excluded and unprocessed — never an
`ILLEGAL` token.  (`readPosition = position + 1` is the reachable-state
invariant, and the input is NUL-free ASCII text.) -/
theorem c3_string_token (l : Lexer) (hch : l.ch = '"')
    (hrp : l.readPosition = l.position + 1)
    (hnul : (Char.ofNat 0) ∉ l.input) :
    (l.nextToken).1.type = TokenType.strTok ∧
    (l.nextToken).1.literal =
      String.mk ((l.input.drop (l.position + 1)).takeWhile (fun c => !(c == '"'))) ∧
    (l.nextToken).1.type ≠ TokenType.illegal := by
  obtain ⟨inp, pos, rp, ch⟩ := l
  dsimp only at hch hrp hnul ⊢
  subst hch hrp
  have hstrne : TokenType.strTok ≠ TokenType.illegal := by decide
  refine ⟨rfl, ?_, fun hcon => hstrne hcon⟩
  show String.mk ((inp.drop (pos + 1)).take
      ((scanStringGo (inp.length + 1)
        ⟨inp, pos, pos + 1, '"'⟩).position - (pos + 1))) =
    String.mk ((inp.drop (pos + 1)).takeWhile (fun c => !(c == '"')))
  rw [scanStringGo_position (inp.length + 1) ⟨inp, pos, pos + 1, '"'⟩ rfl hnul
    (by dsimp only; omega)]
  have harith : ∀ k : Nat, pos + 1 + k - (pos + 1) = k := fun k => by omega
  rw [harith]
  rw [← List.prefix_iff_eq_take.mp (List.takeWhile_prefix _)]

/-- C3 witness: lexing `"hi"` from the opening quote yields the `STRING`
token with literal `hi`. -/
theorem c3_string_token_witness :
    ((Lexer.new "\"hi\"".toList).nextToken).1.type = TokenType.strTok ∧
    ((Lexer.new "\"hi\"".toList).nextToken).1.literal = "hi" := by
  have h := c3_string_token (Lexer.new "\"hi\"".toList) (by decide) (by decide)
    (by decide)
  exact ⟨h.1, h.2.1.trans (by decide)⟩

end Monkey
